import Mathlib

/-!
Shallow embedding of the asemantic fragment validation protocol
(`asemantic_protocol`: crypto.py, fragment.py, state.py, validator.py).

Byte strings are `List Nat` (each entry one byte value).  The concrete hash
primitives (HMAC-SHA256 digests, SHAKE256, SHA-256) are parameters of the
embedding, collected in `Prims`; every protocol definition is translated
line by line from the Python source on top of these parameters.  Stateful
Python methods become explicit state passing; Python exceptions become
`Option` / `Except` results.
-/

/-- Byte strings, as lists of byte values. -/
abbrev Bytes := List Nat

/-- The hash primitives the Python code takes from `hashlib` / `hmac`:
`hmac k m` is `hmac.new(key=k, msg=m, sha256).digest()` (32 bytes),
`shake d n` is `hashlib.shake_256(d).digest(n)`,
`sha256 d` is `hashlib.sha256(d).digest()`. -/
structure Prims where
  hmac : Bytes → Bytes → Bytes
  shake : Bytes → Nat → Bytes
  sha256 : Bytes → Bytes

/-- ASCII bytes of the literal `b"ASEMANTIC_KDF_V1"` (crypto.py, KDF). -/
def KDF_TAG : Bytes := [65, 83, 69, 77, 65, 78, 84, 73, 67, 95, 75, 68, 70, 95, 86, 49]

/-- crypto.KDF: `K_next := HMAC(seed, data ++ "ASEMANTIC_KDF_V1")` where
`data = seed ++ context` when a context is supplied and `data = seed`
for autonomous evolution. -/
def KDF (p : Prims) (seed : Bytes) (context : Option Bytes) : Bytes :=
  let data := match context with
    | some c => seed ++ c
    | none => seed
  p.hmac seed (data ++ KDF_TAG)

/-- Python `n.to_bytes(4, 'big')` for `n < 2^32`. -/
def be32 (n : Nat) : Bytes :=
  [n / 2 ^ 24 % 256, n / 2 ^ 16 % 256, n / 2 ^ 8 % 256, n % 256]

/-- crypto.encode's inner helper: 4-byte big-endian length prefixed data. -/
def length_prefix4 (data : Bytes) : Bytes := be32 data.length ++ data

/-- crypto.encode: length-prefixed concatenation of domain, content and
evolution parameter. -/
def encode (domain content evolution_param : Bytes) : Bytes :=
  length_prefix4 domain ++ length_prefix4 content ++ length_prefix4 evolution_param

/-- The `while len(output) < fragment_length_bytes` extension loop of
crypto.compute_fragment in keyed mode: append `HMAC(key, msg ++ counter)`
digests until `needed` bytes are available.  Each HMAC-SHA256 digest is
32 bytes, so `needed` rounds of fuel always over-suffice; the fuel only
renders the Python `while` structurally recursive. -/
def extend_output (p : Prims) (key msg : Bytes) (needed : Nat) : Nat → Bytes → Bytes
  | 0, out => out
  | fuel + 1, out =>
    if out.length < needed then
      extend_output p key msg needed fuel (out ++ p.hmac key (msg ++ be32 out.length))
    else out

/-- The fragment bytes computed by crypto.compute_fragment once the
`fragment_length_bits < 256` guard has passed. -/
def fragment_core (p : Prims) (domain content evolution_param : Bytes)
    (fragment_length_bits : Nat) (key : Option Bytes) : Bytes :=
  let fragment_length_bytes := fragment_length_bits / 8
  let encoded_input := encode domain content evolution_param
  let output := match key with
    | some k =>
      extend_output p k encoded_input fragment_length_bytes fragment_length_bytes
        (p.hmac k encoded_input)
    | none => p.shake encoded_input fragment_length_bytes
  output.take fragment_length_bytes

/-- crypto.compute_fragment; `none` models the `ValueError` raised when
`fragment_length_bits < 256`. -/
def compute_fragment (p : Prims) (domain content evolution_param : Bytes)
    (fragment_length_bits : Nat) (key : Option Bytes) : Option Bytes :=
  if fragment_length_bits < 256 then none
  else some (fragment_core p domain content evolution_param fragment_length_bits key)

/-- crypto.constant_time_equal: length check, then OR-accumulated XOR of
all byte pairs compared to zero. -/
def constant_time_equal (a b : Bytes) : Bool :=
  if a.length ≠ b.length then false
  else decide ((a.zip b).foldl (fun d xy => d ||| (xy.1 ^^^ xy.2)) 0 = 0)

/-- crypto.prepare_content: `C := SHA256(S)` when `use_hash`, else `C := S`. -/
def prepare_content (p : Prims) (content : Bytes) (use_hash : Bool) : Bytes :=
  if use_hash then p.sha256 content else content

/-!
## Concrete instantiation of the hash parameters

A small executable stand-in for the SHA-2/SHA-3 primitives, used to
evaluate the protocol definitions on concrete inputs.  It has the two
shapes the code relies on: 32-byte HMAC digests and `n`-byte SHAKE output.
-/

/-- One mixing step of the toy digest. -/
def toyMix (acc b : Nat) : Nat := (acc * 131 + b + 17) % 2 ^ 64

/-- Toy digest of a byte string as a natural number below 2^64. -/
def toyDigestNat (l : Bytes) : Nat := l.foldl toyMix 7

/-- Expand a number below 2^64 into 32 bytes (overlapping 8-bit windows). -/
def toyExpand (n : Nat) : Bytes :=
  (List.range 32).map (fun i => n / 2 ^ (2 * i) % 256)

/-- Toy 32-byte keyed digest standing in for HMAC-SHA256. -/
def toyHmac (key msg : Bytes) : Bytes := toyExpand (toyDigestNat (key ++ 255 :: msg))

/-- Toy extensible-output digest standing in for SHAKE256. -/
def toyShake (data : Bytes) (n : Nat) : Bytes :=
  (List.range n).map (fun i => toyDigestNat (data ++ [i]) % 256)

/-- Toy 32-byte digest standing in for SHA-256. -/
def toySha256 (data : Bytes) : Bytes := toyExpand (toyDigestNat (data ++ [1]))

/-- The toy primitives bundle. -/
def toyPrims : Prims :=
  { hmac := toyHmac, shake := toyShake, sha256 := toySha256 }

/-!
## fragment.py — FragmentBuilder (sender state)
-/

/-- ASCII uppercasing of one character: models Python `str.upper` on the
ASCII mode strings used by the code. -/
def upperChar (c : Char) : Char :=
  if 'a' ≤ c ∧ c ≤ 'z' then Char.ofNat (c.toNat - 32) else c

/-- ASCII uppercasing of a string (`mode.upper()` in the Python sources). -/
def upperAscii (s : String) : String := ⟨s.data.map upperChar⟩

/-- The Python exceptions the embedding distinguishes: `ValueError` from
configuration and parameter checks, and I/O errors from persistence. -/
inductive PyError where
  | valueError (msg : String)
  | ioError
deriving DecidableEq

/-- Sender state (fragment.FragmentBuilder fields after `__init__`). -/
structure FragmentBuilder where
  domain : Bytes
  mode : String
  fragment_length : Nat
  use_keyed_mode : Bool
  index : Nat
  seed : Option Bytes
  evol_func : Option (Nat → Bytes)

/-- fragment.FragmentBuilder.__init__: field setup and the mode/seed/evol
configuration checks.  Note the Python constructor performs no check on
`fragment_length`. -/
def FragmentBuilder.init (domain : Bytes) (mode : String) (seed : Option Bytes)
    (evol_func : Option (Nat → Bytes)) (fragment_length : Nat)
    (use_keyed_mode : Bool) : Except PyError FragmentBuilder :=
  let m := upperAscii mode
  if m = "A" then
    match seed with
    | none => .error (.valueError "Mode A requires a seed")
    | some s => .ok { domain, mode := m, fragment_length, use_keyed_mode,
                      index := 0, seed := some s, evol_func := none }
  else if m = "B" then
    match evol_func with
    | none => .error (.valueError "Mode B requires an evolution function")
    | some f => .ok { domain, mode := m, fragment_length, use_keyed_mode,
                      index := 0, seed := none, evol_func := some f }
  else .error (.valueError "Unknown mode")

/-- fragment.FragmentBuilder.build.  A Mode A builder always holds a seed
and a Mode B builder an evolution function (enforced by `init`); the
`getD` defaults are unreachable for constructor-built states. -/
def FragmentBuilder.build (p : Prims) (b : FragmentBuilder) (content : Bytes)
    (content_is_prepared : Bool) : Option Bytes :=
  let prepared := if content_is_prepared then content
    else prepare_content p content true
  let evolution_param := if b.mode = "A" then (b.seed.getD [])
    else (b.evol_func.getD (fun _ => [])) b.index
  let key := if b.mode = "A" ∧ b.use_keyed_mode then b.seed else none
  compute_fragment p b.domain prepared evolution_param b.fragment_length
    (if b.use_keyed_mode then key else none)

/-- fragment.FragmentBuilder.advance: Mode A evolves the seed by `KDF` and
securely erases the old buffer; both modes increment the index. -/
def FragmentBuilder.advance (p : Prims) (b : FragmentBuilder) : FragmentBuilder :=
  let b' := if b.mode = "A" then
      { b with seed := some (KDF p (b.seed.getD []) none) }
    else b
  { b' with index := b'.index + 1 }

/-- Iterated sender advances (`k` of them). -/
def FragmentBuilder.advanceN (p : Prims) (b : FragmentBuilder) : Nat → FragmentBuilder
  | 0 => b
  | k + 1 => FragmentBuilder.advanceN p (FragmentBuilder.advance p b) k

/-!
## state.py — ReceiverState and SecureElementState
-/

/-- Receiver state (state.ReceiverState fields).  `hasPersistence` models
whether a persistence path is configured; `erased` is a ghost log of the
seed buffers handed to `secure_erase`, so that erasure is observable in
the functional embedding. -/
structure ReceiverState where
  mode : String
  anchor : Nat
  seed : Option Bytes
  hasPersistence : Bool
  erased : List Bytes
deriving DecidableEq

/-- Iterated contextless KDF steps from a seed: the chain `K, KDF(K), ...`. -/
def kdfIterate (p : Prims) (seed : Bytes) : Nat → Bytes
  | 0 => seed
  | n + 1 => KDF p (kdfIterate p seed n) none

/-- state.ReceiverState.get_seed_for_index: derive `K_j` by applying `KDF`
`j - t` times to the stored `K_t`; `none` when not Mode A or `j < t`. -/
def ReceiverState.get_seed_for_index (p : Prims) (st : ReceiverState)
    (index : Nat) : Option Bytes :=
  if st.mode ≠ "A" then none
  else if index < st.anchor then none
  else match st.seed with
    | none => none
    | some s => some (kdfIterate p s (index - st.anchor))

/-- state.ReceiverState.advance, with the persistence step made explicit:
`persistFails` says whether `_save_state` raises.  The method mutates the
in-memory state and erases the old seed before persisting, so a persist
failure (`.error .ioError`) leaves the already-updated state behind. -/
def ReceiverState.advanceRun (st : ReceiverState) (new_anchor : Nat)
    (new_seed : Option Bytes) (persistFails : Bool) :
    Except PyError Bool × ReceiverState :=
  if new_anchor ≤ st.anchor then (.ok false, st)
  else if st.mode = "A" then
    match new_seed with
    | none => (.ok false, st)
    | some k =>
      let old_seed := st.seed.getD []
      let st' : ReceiverState :=
        { st with seed := some k, anchor := new_anchor,
                  erased := st.erased ++ [old_seed] }
      if st.hasPersistence && persistFails then (.error .ioError, st')
      else (.ok true, st')
  else
    let st' : ReceiverState := { st with anchor := new_anchor }
    if st.hasPersistence && persistFails then (.error .ioError, st')
    else (.ok true, st')

/-- A parsed persisted state blob; each field is `none` when the JSON key
is absent (the Python code reads them with `state.get(..., 0)` defaults). -/
structure Blob where
  anchor : Option Nat
  rollback_counter : Option Nat
  seed : Option Bytes
deriving DecidableEq

/-- state.ReceiverState._load_state on a parsed blob (`none` models a
malformed file, which the `except` clause ignores).  A blob whose anchor
is below the in-memory anchor is ignored without any fault. -/
def ReceiverState.loadState (st : ReceiverState) (blob : Option Blob) :
    ReceiverState :=
  match blob with
  | none => st
  | some b =>
    let loaded_anchor := b.anchor.getD 0
    if st.anchor ≤ loaded_anchor then
      { st with anchor := loaded_anchor,
                seed := if st.mode = "A" then
                    (match b.seed with | some s => some s | none => st.seed)
                  else st.seed }
    else st

/-- Simulated secure element state (state.SecureElementState): a receiver
state plus the rollback counter. -/
structure SecureElementState where
  core : ReceiverState
  rollback_counter : Nat
deriving DecidableEq

/-- state.SecureElementState._load_state: raise `SecurityError` (modelled
as `.error ()`) when the loaded counter is below the in-memory counter;
otherwise apply the blob's anchor and seed without comparing the anchor. -/
def SecureElementState.loadState (se : SecureElementState) (blob : Option Blob) :
    Except Unit SecureElementState :=
  match blob with
  | none => .ok se
  | some b =>
    let loaded_counter := b.rollback_counter.getD 0
    if loaded_counter < se.rollback_counter then .error ()
    else
      .ok { core := { se.core with
              anchor := b.anchor.getD 0,
              seed := if se.core.mode = "A" then
                  (match b.seed with | some s => some s | none => se.core.seed)
                else se.core.seed },
            rollback_counter := loaded_counter }

/-!
## validator.py — FragmentValidator and ConstantTimeValidator

The validator's `self._stats` dictionary is threaded explicitly; the
receiver state object is threaded through `validateRun` as well, so that
the frame property (validation never mutates it) is statable.  An overall
result of `none` models an uncaught Python exception (the `ValueError`
from `compute_fragment`).
-/

/-- validator.ValidationResult. -/
inductive ValidationResult where
  | ACCEPT
  | REJECT
  | ERROR
deriving DecidableEq

/-- The validator's statistics counters. -/
structure Stats where
  total_validations : Nat
  accepts : Nat
  rejects : Nat
  comparisons : Nat
deriving DecidableEq

/-- The all-zero statistics dictionary the validator starts with. -/
def Stats.init : Stats :=
  { total_validations := 0, accepts := 0, rejects := 0, comparisons := 0 }

/-- Validator configuration (validator.FragmentValidator.__init__ fields). -/
structure ValidatorCfg where
  domain : Bytes
  window_size : Nat
  fragment_length : Nat
  use_keyed_mode : Bool
  evol_func : Option (Nat → Bytes)

/-- The per-index candidate of validator._validate_mode_a: the fragment
recomputed at the current seed, keyed with it when in keyed mode. -/
def modeACandidate (p : Prims) (cfg : ValidatorCfg) (content seed : Bytes) :
    Option Bytes :=
  if cfg.use_keyed_mode then
    compute_fragment p cfg.domain content seed cfg.fragment_length (some seed)
  else
    compute_fragment p cfg.domain content seed cfg.fragment_length none

/-- The `for j in window` loop of validator._validate_mode_a (early stop):
compare the recomputed candidate with `fragment_rx`, return on the first
match, otherwise evolve the local seed copy and continue. -/
def modeALoop (p : Prims) (cfg : ValidatorCfg) (fragment_rx content : Bytes) :
    List Nat → Bytes → Stats → Option (ValidationResult × Option Nat) × Stats
  | [], _, stats =>
    (some (.REJECT, none), { stats with rejects := stats.rejects + 1 })
  | j :: rest, current_seed, stats =>
    let stats := { stats with comparisons := stats.comparisons + 1 }
    match modeACandidate p cfg content current_seed with
    | none => (none, stats)
    | some expected =>
      if constant_time_equal expected fragment_rx then
        (some (.ACCEPT, some j), { stats with accepts := stats.accepts + 1 })
      else
        modeALoop p cfg fragment_rx content rest (KDF p current_seed none) stats

/-- The `for j in window` loop of validator._validate_mode_b (early stop). -/
def modeBLoop (p : Prims) (cfg : ValidatorCfg) (fragment_rx content : Bytes)
    (evol : Nat → Bytes) :
    List Nat → Stats → Option (ValidationResult × Option Nat) × Stats
  | [], stats =>
    (some (.REJECT, none), { stats with rejects := stats.rejects + 1 })
  | j :: rest, stats =>
    let stats := { stats with comparisons := stats.comparisons + 1 }
    match compute_fragment p cfg.domain content (evol j) cfg.fragment_length none with
    | none => (none, stats)
    | some expected =>
      if constant_time_equal expected fragment_rx then
        (some (.ACCEPT, some j), { stats with accepts := stats.accepts + 1 })
      else
        modeBLoop p cfg fragment_rx content evol rest stats

/-- The full-window loop of ConstantTimeValidator._validate_mode_a: never
return early; remember the first matching index and keep iterating. -/
def ctModeALoop (p : Prims) (cfg : ValidatorCfg) (fragment_rx content : Bytes) :
    List Nat → Bytes → Option Nat → Stats →
    Option (ValidationResult × Option Nat) × Stats
  | [], _, matched_index, stats =>
    match matched_index with
    | some j => (some (.ACCEPT, some j), { stats with accepts := stats.accepts + 1 })
    | none => (some (.REJECT, none), { stats with rejects := stats.rejects + 1 })
  | j :: rest, current_seed, matched_index, stats =>
    let stats := { stats with comparisons := stats.comparisons + 1 }
    match modeACandidate p cfg content current_seed with
    | none => (none, stats)
    | some expected =>
      let matched_index := if constant_time_equal expected fragment_rx then
          (if matched_index = none then some j else matched_index)
        else matched_index
      ctModeALoop p cfg fragment_rx content rest (KDF p current_seed none)
        matched_index stats

/-- validator.FragmentValidator.validate (with `ct = true` selecting the
ConstantTimeValidator subclass, which overrides only `_validate_mode_a`).
Returns the outcome together with the receiver state and the updated
statistics counters. -/
def validateRun (p : Prims) (cfg : ValidatorCfg) (ct : Bool)
    (fragment_rx : Bytes) (st : ReceiverState) (content : Bytes)
    (content_is_prepared : Bool) (stats : Stats) :
    Option (ValidationResult × Option Nat) × ReceiverState × Stats :=
  let stats := { stats with total_validations := stats.total_validations + 1 }
  let expected_length := cfg.fragment_length / 8
  if fragment_rx.length ≠ expected_length then (some (.ERROR, none), st, stats)
  else
    let prepared_content := if content_is_prepared then content
      else prepare_content p content true
    let window := List.range' st.anchor (cfg.window_size + 1)
    if st.mode = "A" then
      match st.seed with
      | none => (some (.ERROR, none), st, stats)
      | some current_seed =>
        let res := if ct then
            ctModeALoop p cfg fragment_rx prepared_content window current_seed
              none stats
          else
            modeALoop p cfg fragment_rx prepared_content window current_seed stats
        (res.1, st, res.2)
    else
      match cfg.evol_func with
      | none => (some (.ERROR, none), st, stats)
      | some evol =>
        let res := modeBLoop p cfg fragment_rx prepared_content evol
          window stats
        (res.1, st, res.2)

/-- validator.FragmentValidator.validate_and_commit: validate, then on
ACCEPT derive the next seed and advance the state; a failed advance maps
to `(ERROR, none)` and exceptions from `compute_fragment` or from the
persistence step propagate (the state is left as the raising code left
it — the Python method has no rollback). -/
def validateAndCommitRun (p : Prims) (cfg : ValidatorCfg) (ct : Bool)
    (fragment_rx : Bytes) (st : ReceiverState) (content : Bytes)
    (content_is_prepared : Bool) (persistFails : Bool) (stats : Stats) :
    Except PyError (ValidationResult × Option Nat) × ReceiverState × Stats :=
  match validateRun p cfg ct fragment_rx st content content_is_prepared stats with
  | (none, st', stats') =>
    (.error (.valueError "Fragment length must be >= 256 bits"), st', stats')
  | (some (result, matched_index), st', stats') =>
    match result, matched_index with
    | .ACCEPT, some j =>
      let new_seed := if st'.mode = "A" then
          ReceiverState.get_seed_for_index p st' (j + 1)
        else none
      match ReceiverState.advanceRun st' (j + 1) new_seed persistFails with
      | (.error e, st'') => (.error e, st'', stats')
      | (.ok true, st'') => (.ok (result, matched_index), st'', stats')
      | (.ok false, st'') => (.ok (.ERROR, none), st'', stats')
    | _, _ => (.ok (result, matched_index), st', stats')

/-!
## Concrete inputs for evaluating the protocol on the toy primitives
-/

/-- A 16-byte domain tag. -/
def demoDomain : Bytes := [10, 11, 12, 13, 14, 15, 16, 17, 18, 19, 20, 21, 22, 23, 24, 25]

/-- A concrete initial seed. -/
def demoSeed : Bytes := [1, 2, 3, 4]

/-- A concrete payload. -/
def demoPayload : Bytes := [65, 66, 67]

/-- A Mode A validator configuration with window width 7. -/
def demoCfgA : ValidatorCfg :=
  { domain := demoDomain, window_size := 7, fragment_length := 256,
    use_keyed_mode := true, evol_func := none }

/-- A Mode A sender aligned with `demoStateA`. -/
def demoBuilderA : FragmentBuilder :=
  { domain := demoDomain, mode := "A", fragment_length := 256,
    use_keyed_mode := true, index := 0, seed := some demoSeed, evol_func := none }

/-- A Mode A receiver state at anchor 0 without persistence. -/
def demoStateA : ReceiverState :=
  { mode := "A", anchor := 0, seed := some demoSeed, hasPersistence := false,
    erased := [] }

/-- A Mode A receiver state at anchor 0 with persistence configured. -/
def demoStateAPersist : ReceiverState :=
  { mode := "A", anchor := 0, seed := some demoSeed, hasPersistence := true,
    erased := [] }

/-- The fragment the aligned sender emits on `demoPayload`. -/
def demoFragmentA : Bytes :=
  (FragmentBuilder.build toyPrims demoBuilderA demoPayload false).getD []

/-- A concrete Mode B evolution function. -/
def demoEvol (i : Nat) : Bytes := List.replicate 8 i

/-- A Mode B validator configuration with window width 2. -/
def demoCfgB : ValidatorCfg :=
  { domain := demoDomain, window_size := 2, fragment_length := 256,
    use_keyed_mode := true, evol_func := some demoEvol }

/-- A Mode B receiver state at anchor 0. -/
def demoStateB : ReceiverState :=
  { mode := "B", anchor := 0, seed := none, hasPersistence := false, erased := [] }

/-- The Mode B fragment at index 0 on `demoPayload`. -/
def demoFragmentB : Bytes :=
  (compute_fragment toyPrims demoDomain (toySha256 demoPayload) (demoEvol 0)
    256 none).getD []

/-- A builder constructed with `fragment_length = 128 < 256`:
`FragmentBuilder.init` accepts it. -/
def smallLenBuilder : Except PyError FragmentBuilder :=
  FragmentBuilder.init demoDomain "A" (some demoSeed) none 128 true

/-- Returns `true` exactly on `Except.ok`. -/
def exceptOk {ε α : Type} : Except ε α → Bool
  | .ok _ => true
  | .error _ => false

/-- Primitives whose keyed digest is injective in the message for a fixed
key, used to instantiate the KDF context-separation statement. -/
def injPrims : Prims :=
  { hmac := fun k m => k ++ 255 :: m, shake := toyShake, sha256 := toySha256 }

/-- A secure-element state at anchor 10 with rollback counter 5. -/
def demoSE : SecureElementState :=
  { core := { mode := "B", anchor := 10, seed := none, hasPersistence := true,
              erased := [] },
    rollback_counter := 5 }

/-- A persisted blob carrying an older anchor but the same counter. -/
def demoOldAnchorBlob : Blob :=
  { anchor := some 3, rollback_counter := some 5, seed := none }

/-- The fragment the sender emits after 2 advances. -/
def demoFragmentAfter2 : Bytes :=
  (FragmentBuilder.build toyPrims (FragmentBuilder.advanceN toyPrims demoBuilderA 2)
    demoPayload false).getD []

/-- The fragment the sender emits after 9 advances (outside the window). -/
def demoFragmentAfter9 : Bytes :=
  (FragmentBuilder.build toyPrims (FragmentBuilder.advanceN toyPrims demoBuilderA 9)
    demoPayload false).getD []

/-- A Mode A builder carrying the under-sized fragment length 128. -/
def smallBuilderA : FragmentBuilder :=
  { domain := demoDomain, mode := "A", fragment_length := 128,
    use_keyed_mode := true, index := 0, seed := some demoSeed, evol_func := none }

/-- A persisted blob whose rollback counter is behind the secure element. -/
def demoLowCounterBlob : Blob :=
  { anchor := some 20, rollback_counter := some 4, seed := none }

/-- The byte value `modeACandidate` returns when the length guard has
passed (proof-layer abbreviation). -/
def candidateA (p : Prims) (cfg : ValidatorCfg) (content seed : Bytes) : Bytes :=
  fragment_core p cfg.domain content seed cfg.fragment_length
    (if cfg.use_keyed_mode then some seed else none)

/-!
## Helper lemmas
-/

/-- A bitwise OR of naturals is zero exactly when both sides are. -/
theorem nat_or_eq_zero_iff (a b : Nat) : a ||| b = 0 ↔ a = 0 ∧ b = 0 := by
  constructor
  · intro h
    constructor
    · apply Nat.eq_of_testBit_eq
      intro i
      have hbit := congrArg (fun n => Nat.testBit n i) h
      simp [Nat.testBit_or] at hbit
      simp [hbit.1]
    · apply Nat.eq_of_testBit_eq
      intro i
      have hbit := congrArg (fun n => Nat.testBit n i) h
      simp [Nat.testBit_or] at hbit
      simp [hbit.2]
  · rintro ⟨rfl, rfl⟩
    rfl

/-- The accumulated OR of XORed byte pairs is zero exactly when the
accumulator is zero and every pair is equal. -/
theorem ctFold_eq_zero_iff (l : List (Nat × Nat)) :
    ∀ d, (l.foldl (fun d xy => d ||| (xy.1 ^^^ xy.2)) d = 0 ↔
      d = 0 ∧ ∀ xy ∈ l, xy.1 = xy.2) := by
  induction l with
  | nil => intro d; simp
  | cons hd tl ih =>
    intro d
    simp only [List.foldl_cons, ih, nat_or_eq_zero_iff, Nat.xor_eq_zero,
      List.mem_cons]
    constructor
    · rintro ⟨⟨h1, h2⟩, h3⟩
      exact ⟨h1, fun xy hxy => by
        rcases hxy with rfl | hxy
        · exact h2
        · exact h3 xy hxy⟩
    · rintro ⟨h1, h2⟩
      exact ⟨⟨h1, h2 hd (Or.inl rfl)⟩, fun xy hxy => h2 xy (Or.inr hxy)⟩

/-- crypto.constant_time_equal decides byte-string equality. -/
theorem constant_time_equal_iff (a b : Bytes) :
    constant_time_equal a b = true ↔ a = b := by
  unfold constant_time_equal
  by_cases hlen : a.length = b.length
  · rw [if_neg (by simpa using hlen)]
    rw [decide_eq_true_eq, ctFold_eq_zero_iff]
    simp only [true_and]
    constructor
    · intro h
      apply List.ext_getElem hlen
      intro i h1 h2
      have hm := h (a[i], b[i]) ?_
      · simpa using hm
      · rw [List.mem_iff_getElem]
        refine ⟨i, by simp [List.length_zip]; omega, by simp⟩
    · rintro rfl xy hxy
      rcases List.mem_iff_getElem.mp hxy with ⟨i, hi, heq⟩
      rw [List.getElem_zip] at heq
      rw [← heq]
  · rw [if_pos (by simpa using hlen)]
    simp only [Bool.false_eq_true, false_iff]
    intro h
    exact hlen (by rw [h])

/-- constant_time_equal is reflexive. -/
theorem constant_time_equal_self (a : Bytes) : constant_time_equal a a = true :=
  (constant_time_equal_iff a a).mpr rfl

/-- If the fuel covers the missing bytes, the extension loop reaches the
needed length (each HMAC digest contributes 32 bytes). -/
theorem extend_output_length (p : Prims)
    (hml : ∀ k m, (p.hmac k m).length = 32) (key msg : Bytes) (needed : Nat) :
    ∀ fuel out, needed ≤ out.length + 32 * fuel →
      needed ≤ (extend_output p key msg needed fuel out).length := by
  intro fuel
  induction fuel with
  | zero => intro out h; simpa [extend_output] using h
  | succ n ih =>
    intro out h
    rw [extend_output]
    by_cases hlt : out.length < needed
    · rw [if_pos hlt]
      apply ih
      rw [List.length_append, hml]
      omega
    · rw [if_neg hlt]
      omega

/-- In keyed mode with 32-byte digests and `ℓ ≥ 256`, the fragment core
has exactly `ℓ / 8` bytes. -/
theorem fragment_core_length (p : Prims)
    (hml : ∀ k m, (p.hmac k m).length = 32) (domain content z : Bytes)
    (L : Nat) (hL : 256 ≤ L) (key : Bytes) :
    (fragment_core p domain content z L (some key)).length = L / 8 := by
  have h := extend_output_length p hml key (encode domain content z) (L / 8)
    (L / 8) (p.hmac key (encode domain content z)) (by omega)
  simp only [fragment_core, List.length_take]
  omega

/-- Unfolding the KDF chain from the front. -/
theorem kdfIterate_shift (p : Prims) (seed : Bytes) (n : Nat) :
    kdfIterate p seed (n + 1) = kdfIterate p (KDF p seed none) n := by
  induction n with
  | zero => rfl
  | succ m ih => rw [kdfIterate, ih, kdfIterate]

/-- The Mode A candidate in terms of `fragment_core`, once `ℓ ≥ 256`. -/
theorem modeACandidate_eq (p : Prims) (cfg : ValidatorCfg) (content seed : Bytes)
    (hL : 256 ≤ cfg.fragment_length) :
    modeACandidate p cfg content seed =
      some (fragment_core p cfg.domain content seed cfg.fragment_length
        (if cfg.use_keyed_mode then some seed else none)) := by
  unfold modeACandidate compute_fragment
  rcases cfg.use_keyed_mode with _ | _ <;> simp <;> omega

/-- Rewriting `modeACandidate` in terms of `candidateA`. -/
theorem modeACandidate_eq_candidateA (p : Prims) (cfg : ValidatorCfg)
    (content seed : Bytes) (hL : 256 ≤ cfg.fragment_length) :
    modeACandidate p cfg content seed = some (candidateA p cfg content seed) := by
  rw [modeACandidate_eq p cfg content seed hL, candidateA]

/-- When no candidate in the window matches, the early-stop Mode A loop
returns a silent reject. -/
theorem modeALoop_reject (p : Prims) (cfg : ValidatorCfg) (F C : Bytes)
    (hL : 256 ≤ cfg.fragment_length) :
    ∀ n t s stats, (∀ i < n, candidateA p cfg C (kdfIterate p s i) ≠ F) →
      (modeALoop p cfg F C (List.range' t n) s stats).1 =
        some (.REJECT, none) := by
  intro n
  induction n with
  | zero => intro t s stats _; rfl
  | succ m ih =>
    intro t s stats h
    have h0 : candidateA p cfg C s ≠ F := by
      have := h 0 (by omega)
      simpa [kdfIterate] using this
    have hct : constant_time_equal (candidateA p cfg C s) F = false := by
      rw [Bool.eq_false_iff]
      intro hc
      exact h0 ((constant_time_equal_iff _ _).mp hc)
    rw [List.range'_succ]
    simp only [modeALoop, modeACandidate_eq_candidateA p cfg C s hL, hct,
      Bool.false_eq_true, if_false]
    apply ih
    intro i hi
    rw [← kdfIterate_shift]
    exact h (i + 1) (by omega)

/-- When the first match in the window sits at offset `m`, the early-stop
Mode A loop accepts at index `t + m`. -/
theorem modeALoop_accept (p : Prims) (cfg : ValidatorCfg) (F C : Bytes)
    (hL : 256 ≤ cfg.fragment_length) :
    ∀ m n t s stats, m < n →
      (∀ i < m, candidateA p cfg C (kdfIterate p s i) ≠ F) →
      candidateA p cfg C (kdfIterate p s m) = F →
      (modeALoop p cfg F C (List.range' t n) s stats).1 =
        some (.ACCEPT, some (t + m)) := by
  intro m
  induction m with
  | zero =>
    intro n t s stats hn _ hm
    cases n with
    | zero => omega
    | succ n' =>
      have hct : constant_time_equal (candidateA p cfg C s) F = true := by
        rw [constant_time_equal_iff]
        simpa [kdfIterate] using hm
      rw [List.range'_succ]
      simp only [modeALoop, modeACandidate_eq_candidateA p cfg C s hL, hct,
        if_true, Nat.add_zero]
  | succ m' ih =>
    intro n t s stats hn hno hm
    cases n with
    | zero => omega
    | succ n' =>
      have h0 : candidateA p cfg C s ≠ F := by
        have := hno 0 (by omega)
        simpa [kdfIterate] using this
      have hct : constant_time_equal (candidateA p cfg C s) F = false := by
        rw [Bool.eq_false_iff]
        intro hc
        exact h0 ((constant_time_equal_iff _ _).mp hc)
      rw [List.range'_succ]
      simp only [modeALoop, modeACandidate_eq_candidateA p cfg C s hL, hct,
        Bool.false_eq_true, if_false]
      have hres := ih n' (t + 1) (KDF p s none)
        { stats with comparisons := stats.comparisons + 1 } (by omega)
        (fun i hi => by
          rw [← kdfIterate_shift]
          exact hno (i + 1) (by omega))
        (by rw [← kdfIterate_shift]; exact hm)
      rw [hres]
      have harith : t + 1 + m' = t + (m' + 1) := by omega
      rw [harith]

/-- What fragment.FragmentBuilder.build computes in keyed Mode A. -/
theorem build_modeA_keyed (p : Prims) (b : FragmentBuilder) (K S : Bytes)
    (hmode : b.mode = "A") (hseed : b.seed = some K)
    (hkeyed : b.use_keyed_mode = true) :
    FragmentBuilder.build p b S false =
      compute_fragment p b.domain (p.sha256 S) K b.fragment_length (some K) := by
  simp [FragmentBuilder.build, hmode, hseed, hkeyed, prepare_content]

/-- fragment.FragmentBuilder.advance keeps every configuration field and,
in Mode A, replaces the seed by its KDF image. -/
theorem advance_fields (p : Prims) (b : FragmentBuilder) :
    (FragmentBuilder.advance p b).mode = b.mode ∧
    (FragmentBuilder.advance p b).domain = b.domain ∧
    (FragmentBuilder.advance p b).fragment_length = b.fragment_length ∧
    (FragmentBuilder.advance p b).use_keyed_mode = b.use_keyed_mode ∧
    (FragmentBuilder.advance p b).index = b.index + 1 := by
  unfold FragmentBuilder.advance
  by_cases h : b.mode = "A" <;> simp [h]

/-- After `k` advances the configuration fields are unchanged, the index
has moved `k` steps and (Mode A) the seed is `k` KDF steps ahead. -/
theorem advanceN_fields (p : Prims) :
    ∀ (k : Nat) (b : FragmentBuilder) (K : Bytes), b.mode = "A" →
      b.seed = some K →
      (FragmentBuilder.advanceN p b k).mode = "A" ∧
      (FragmentBuilder.advanceN p b k).domain = b.domain ∧
      (FragmentBuilder.advanceN p b k).fragment_length = b.fragment_length ∧
      (FragmentBuilder.advanceN p b k).use_keyed_mode = b.use_keyed_mode ∧
      (FragmentBuilder.advanceN p b k).index = b.index + k ∧
      (FragmentBuilder.advanceN p b k).seed = some (kdfIterate p K k) := by
  intro k
  induction k with
  | zero =>
    intro b K hmode hseed
    exact ⟨hmode, rfl, rfl, rfl, rfl, by simpa [kdfIterate] using hseed⟩
  | succ n ih =>
    intro b K hmode hseed
    have hstep : FragmentBuilder.advance p b =
        { b with seed := some (KDF p K none), index := b.index + 1 } := by
      simp [FragmentBuilder.advance, hmode, hseed]
    have ihx := ih (FragmentBuilder.advance p b) (KDF p K none)
      (by rw [hstep]; simpa using hmode) (by rw [hstep])
    rw [FragmentBuilder.advanceN]
    refine ⟨ihx.1, ?_, ?_, ?_, ?_, ?_⟩
    · rw [ihx.2.1, hstep]
    · rw [ihx.2.2.1, hstep]
    · rw [ihx.2.2.2.1, hstep]
    · rw [ihx.2.2.2.2.1, hstep]
      simp
      omega
    · rw [ihx.2.2.2.2.2, ← kdfIterate_shift]

/-- validator.FragmentValidator.validate in Mode A reduces to the window
loop once the length check passes. -/
theorem validateRun_modeA (p : Prims) (cfg : ValidatorCfg) (frag : Bytes)
    (st : ReceiverState) (S : Bytes) (stats : Stats) (K : Bytes)
    (hsmode : st.mode = "A") (hsseed : st.seed = some K)
    (hlen : frag.length = cfg.fragment_length / 8) :
    (validateRun p cfg false frag st S false stats).1 =
      (modeALoop p cfg frag (p.sha256 S)
        (List.range' st.anchor (cfg.window_size + 1)) K
        { stats with total_validations := stats.total_validations + 1 }).1 := by
  simp [validateRun, hsmode, hsseed, hlen, prepare_content]

/-- C1.  Round-trip acceptance: with sender and receiver aligned in keyed
Mode A (same domain, fragment length `ℓ ≥ 256`, same seed, sender index
equal to the receiver anchor), validating the fragment the sender builds
on payload `S` yields `(ACCEPT, t)` at the receiver anchor `t`. -/
theorem C1_round_trip (p : Prims) (cfg : ValidatorCfg) (b : FragmentBuilder)
    (st : ReceiverState) (K S frag : Bytes) (stats : Stats)
    (hml : ∀ k m, (p.hmac k m).length = 32)
    (hL : 256 ≤ cfg.fragment_length)
    (hbmode : b.mode = "A") (hbseed : b.seed = some K)
    (hbdom : b.domain = cfg.domain)
    (hbL : b.fragment_length = cfg.fragment_length)
    (hbk : b.use_keyed_mode = true) (hck : cfg.use_keyed_mode = true)
    (hsmode : st.mode = "A") (hsseed : st.seed = some K)
    (halign : b.index = st.anchor)
    (hfrag : FragmentBuilder.build p b S false = some frag) :
    (validateRun p cfg false frag st S false stats).1 =
      some (.ACCEPT, some st.anchor) := by
  have hnl : ¬ (cfg.fragment_length < 256) := by omega
  rw [build_modeA_keyed p b K S hbmode hbseed hbk, hbdom, hbL,
    compute_fragment, if_neg hnl] at hfrag
  have hfrag' : frag =
      fragment_core p cfg.domain (p.sha256 S) K cfg.fragment_length (some K) := by
    exact (Option.some.inj hfrag).symm
  have hlen : frag.length = cfg.fragment_length / 8 := by
    rw [hfrag']
    exact fragment_core_length p hml _ _ _ _ hL K
  rw [validateRun_modeA p cfg frag st S stats K hsmode hsseed hlen]
  have hacc := modeALoop_accept p cfg frag (p.sha256 S) hL 0
    (cfg.window_size + 1) st.anchor K
    { stats with total_validations := stats.total_validations + 1 }
    (by omega) (by omega)
    (by rw [kdfIterate, candidateA, hck, if_pos rfl, hfrag'])
  rw [hacc, Nat.add_zero]

/-- Every toy HMAC digest has 32 bytes, like a real SHA-256 digest. -/
theorem toyPrims_hmac_length (k m : Bytes) : (toyPrims.hmac k m).length = 32 := by
  simp [toyPrims, toyHmac, toyExpand]

/-- Witness for C1 on the toy primitives: the aligned pair at anchor 0
accepts the sender's fragment at index 0. -/
theorem C1_round_trip_witness :
    (validateRun toyPrims demoCfgA false demoFragmentA demoStateA demoPayload
      false Stats.init).1 = some (.ACCEPT, some demoStateA.anchor) :=
  C1_round_trip toyPrims demoCfgA demoBuilderA demoStateA demoSeed demoPayload
    demoFragmentA Stats.init toyPrims_hmac_length (by decide) rfl rfl rfl rfl
    rfl rfl rfl rfl rfl (by rfl)

/-- C2.  Window bound: from an aligned keyed Mode A pair at anchor `t`,
after exactly `k` sender advances the next fragment is accepted at index
`t + k` exactly when `k ≤ ν`, and rejected when `k > ν` — assuming the
recomputed window candidates do not collide with the sent fragment at
other indices. -/
theorem C2_window_bound (p : Prims) (cfg : ValidatorCfg) (b : FragmentBuilder)
    (st : ReceiverState) (K S frag : Bytes) (stats : Stats) (k : Nat)
    (hml : ∀ k' m, (p.hmac k' m).length = 32)
    (hL : 256 ≤ cfg.fragment_length)
    (hbmode : b.mode = "A") (hbseed : b.seed = some K)
    (hbdom : b.domain = cfg.domain)
    (hbL : b.fragment_length = cfg.fragment_length)
    (hbk : b.use_keyed_mode = true) (hck : cfg.use_keyed_mode = true)
    (hsmode : st.mode = "A") (hsseed : st.seed = some K)
    (halign : b.index = st.anchor)
    (hdist : ∀ j, j ≤ cfg.window_size → j ≠ k →
      candidateA p cfg (p.sha256 S) (kdfIterate p K j) ≠
        candidateA p cfg (p.sha256 S) (kdfIterate p K k))
    (hfrag : FragmentBuilder.build p (FragmentBuilder.advanceN p b k) S false =
      some frag) :
    ((validateRun p cfg false frag st S false stats).1 =
        some (.ACCEPT, some (st.anchor + k)) ↔ k ≤ cfg.window_size) ∧
    (cfg.window_size < k →
      (validateRun p cfg false frag st S false stats).1 =
        some (.REJECT, none)) := by
  have hnl : ¬ (cfg.fragment_length < 256) := by omega
  obtain ⟨hamode, hadom, haL, hak, _, haseed⟩ :=
    advanceN_fields p k b K hbmode hbseed
  rw [build_modeA_keyed p _ (kdfIterate p K k) S hamode haseed
      (by rw [hak, hbk]),
    hadom, hbdom, haL, hbL, compute_fragment, if_neg hnl] at hfrag
  have hfrag' : frag = candidateA p cfg (p.sha256 S) (kdfIterate p K k) := by
    rw [candidateA, hck, if_pos rfl]
    exact (Option.some.inj hfrag).symm
  have hlen : frag.length = cfg.fragment_length / 8 := by
    rw [hfrag', candidateA, hck, if_pos rfl]
    exact fragment_core_length p hml _ _ _ _ hL _
  rw [validateRun_modeA p cfg frag st S stats K hsmode hsseed hlen]
  by_cases hk : k ≤ cfg.window_size
  · have hacc := modeALoop_accept p cfg frag (p.sha256 S) hL k
      (cfg.window_size + 1) st.anchor K
      { stats with total_validations := stats.total_validations + 1 }
      (by omega)
      (fun i hi => by
        rw [hfrag']
        exact hdist i (by omega) (by omega))
      hfrag'.symm
    refine ⟨⟨fun _ => hk, fun _ => hacc⟩, fun hlt => absurd hk (by omega)⟩
  · have hrej := modeALoop_reject p cfg frag (p.sha256 S) hL
      (cfg.window_size + 1) st.anchor K
      { stats with total_validations := stats.total_validations + 1 }
      (fun i hi => by
        rw [hfrag']
        exact hdist i (by omega) (by omega))
    refine ⟨⟨fun hcontra => ?_, fun hle => absurd hle hk⟩, fun _ => hrej⟩
    rw [hrej] at hcontra
    simp at hcontra

set_option maxRecDepth 10000 in
/-- Witness for C2 on the toy primitives: after 2 advances (window 7) the
fragment is accepted at index 2; after 9 advances it is rejected. -/
theorem C2_window_bound_witness :
    (((validateRun toyPrims demoCfgA false demoFragmentAfter2 demoStateA
        demoPayload false Stats.init).1 =
          some (.ACCEPT, some (demoStateA.anchor + 2)) ↔
        2 ≤ demoCfgA.window_size) ∧
      (demoCfgA.window_size < 2 →
        (validateRun toyPrims demoCfgA false demoFragmentAfter2 demoStateA
          demoPayload false Stats.init).1 = some (.REJECT, none))) ∧
    (demoCfgA.window_size < 9 →
      (validateRun toyPrims demoCfgA false demoFragmentAfter9 demoStateA
        demoPayload false Stats.init).1 = some (.REJECT, none)) :=
  ⟨C2_window_bound toyPrims demoCfgA demoBuilderA demoStateA demoSeed
      demoPayload demoFragmentAfter2 Stats.init 2 toyPrims_hmac_length
      (by decide) rfl rfl rfl rfl rfl rfl rfl rfl rfl (by decide) rfl,
    (C2_window_bound toyPrims demoCfgA demoBuilderA demoStateA demoSeed
      demoPayload demoFragmentAfter9 Stats.init 9 toyPrims_hmac_length
      (by decide) rfl rfl rfl rfl rfl rfl rfl rfl rfl (by decide) rfl).2⟩

/-- C3.  Receiver advance contract (with a non-failing persistence step):
`advance(t', K')` succeeds exactly when `t' > t` and, in Mode A, `K'` is
non-null; on failure the state is untouched, on success the anchor becomes
`t'` and (Mode A) the stored seed becomes `K'`. -/
theorem C3_advance_contract (st : ReceiverState) (t' : Nat) (K' : Option Bytes) :
    ((ReceiverState.advanceRun st t' K' false).1 = .ok true ↔
      (st.anchor < t' ∧ (st.mode = "A" → K' ≠ none))) ∧
    ((ReceiverState.advanceRun st t' K' false).1 = .ok false →
      (ReceiverState.advanceRun st t' K' false).2 = st) ∧
    ((ReceiverState.advanceRun st t' K' false).1 = .ok true →
      (ReceiverState.advanceRun st t' K' false).2.anchor = t' ∧
      (st.mode = "A" → (ReceiverState.advanceRun st t' K' false).2.seed = K')) := by
  unfold ReceiverState.advanceRun
  by_cases hle : t' ≤ st.anchor
  · simp only [if_pos hle]
    refine ⟨⟨fun h => by simp at h, fun h => absurd h.1 (by omega)⟩,
      fun _ => by trivial, fun h => by simp at h⟩
  · simp only [if_neg hle]
    by_cases hmode : st.mode = "A"
    · simp only [if_pos hmode]
      cases K' with
      | none =>
        refine ⟨⟨fun h => by simp at h, fun h => absurd rfl (h.2 hmode)⟩,
          fun _ => by trivial, fun h => by simp at h⟩
      | some k =>
        simp only [Bool.and_false, Bool.false_eq_true, if_false]
        refine ⟨⟨fun _ => ⟨by omega, fun _ => by simp⟩, fun _ => by trivial⟩,
          fun h => by simp at h, fun _ => ⟨by trivial, fun _ => by trivial⟩⟩
    · simp only [if_neg hmode, Bool.and_false, Bool.false_eq_true, if_false]
      refine ⟨⟨fun _ => ⟨by omega, fun hm => absurd hm hmode⟩, fun _ => by trivial⟩,
        fun h => by simp at h, fun _ => ⟨by trivial, fun hm => absurd hm hmode⟩⟩

set_option maxRecDepth 10000 in
/-- C4.  At a concrete aligned Mode A pair with persistence configured,
when the persist step fails after the match at index 0 the call raises the
I/O error instead of returning `(ERROR, ⊥)`, the in-memory anchor stays
advanced to 1, the seed is already replaced by `KDF(K)`, and the old seed
has been securely erased — there is no rollback. -/
theorem C4_no_rollback_on_persist_failure :
    (validateAndCommitRun toyPrims demoCfgA false demoFragmentA
        demoStateAPersist demoPayload false true Stats.init).1 =
      .error .ioError ∧
    (validateAndCommitRun toyPrims demoCfgA false demoFragmentA
        demoStateAPersist demoPayload false true Stats.init).2.1.anchor = 1 ∧
    (validateAndCommitRun toyPrims demoCfgA false demoFragmentA
        demoStateAPersist demoPayload false true Stats.init).2.1.seed =
      some (KDF toyPrims demoSeed none) ∧
    (validateAndCommitRun toyPrims demoCfgA false demoFragmentA
        demoStateAPersist demoPayload false true Stats.init).2.1.erased =
      [demoSeed] :=
  ⟨rfl, rfl, rfl, rfl⟩

set_option maxRecDepth 10000 in
/-- C5.  The constant-time validator dispatches Mode B to the inherited
early-stop loop: on a fragment matching at the first window index with
window width 2, it performs a single comparison instead of the full
3-iteration traversal the class documents. -/
theorem C5_mode_b_inherits_early_stop :
    (validateRun toyPrims demoCfgB true demoFragmentB demoStateB demoPayload
        false Stats.init).1 = some (.ACCEPT, some 0) ∧
    (validateRun toyPrims demoCfgB true demoFragmentB demoStateB demoPayload
        false Stats.init).2.2.comparisons = 1 ∧
    demoCfgB.window_size + 1 = 3 :=
  ⟨rfl, rfl, rfl⟩

/-- C6 counterexample: the empty context collides with autonomous
evolution — `KDF(K, b"")` equals `KDF(K)`, refuting "supplying a context
always yields a different output". -/
theorem C6_counterexample :
    KDF toyPrims demoSeed (some []) = KDF toyPrims demoSeed none := by
  simp [KDF]

/-- C6 amended.  For a non-empty context the two HMAC messages differ, so
whenever the HMAC is injective in its message (for the fixed key) the
contextual derivation differs from the autonomous one. -/
theorem C6_context_separation (p : Prims) (K θ : Bytes) (hθ : θ ≠ [])
    (hinj : ∀ m₁ m₂ : Bytes, p.hmac K m₁ = p.hmac K m₂ → m₁ = m₂) :
    KDF p K (some θ) ≠ KDF p K none := by
  intro h
  simp only [KDF] at h
  have h2 := hinj _ _ h
  have h3 := congrArg List.length h2
  simp only [List.length_append] at h3
  exact hθ (List.length_eq_zero.mp (by omega))

/-- Witness for the amended C6 at an injective instantiation. -/
theorem C6_context_separation_witness :
    KDF injPrims [1] (some [2]) ≠ KDF injPrims [1] none :=
  C6_context_separation injPrims [1] [2] (by decide)
    (fun m₁ m₂ h => by
      simp only [injPrims] at h
      simpa using List.append_cancel_left h)

/-- The 4-byte big-endian length prefix is injective below 2^32. -/
theorem be32_inj (m n : Nat) (hm : m < 2 ^ 32) (hn : n < 2 ^ 32)
    (h : be32 m = be32 n) : m = n := by
  simp only [be32, List.cons.injEq, and_true] at h
  omega

/-- Peeling one length-prefixed field off equal concatenations: the fields
and the remainders agree (fields shorter than 2^32 bytes). -/
theorem length_prefix4_append_inj (a a' r r' : Bytes)
    (ha : a.length < 2 ^ 32) (ha' : a'.length < 2 ^ 32)
    (h : length_prefix4 a ++ r = length_prefix4 a' ++ r') :
    a = a' ∧ r = r' := by
  have h2 : be32 a.length ++ (a ++ r) = be32 a'.length ++ (a' ++ r') := by
    simpa [length_prefix4, List.append_assoc] using h
  have hdig : a.length / 2 ^ 24 % 256 = a'.length / 2 ^ 24 % 256 ∧
      a.length / 2 ^ 16 % 256 = a'.length / 2 ^ 16 % 256 ∧
      a.length / 2 ^ 8 % 256 = a'.length / 2 ^ 8 % 256 ∧
      a.length % 256 = a'.length % 256 ∧ a ++ r = a' ++ r' := by
    simpa only [be32, List.cons_append, List.nil_append, List.cons.injEq]
      using h2
  have hlen : a.length = a'.length := by
    obtain ⟨d1, d2, d3, d4, _⟩ := hdig
    omega
  exact List.append_inj hdig.2.2.2.2 hlen

/-- C7.  Injectivity of crypto.encode over triples whose components are
each shorter than 2^32 bytes. -/
theorem C7_encode_injective (D C Z D' C' Z' : Bytes)
    (hD : D.length < 2 ^ 32) (hC : C.length < 2 ^ 32) (hZ : Z.length < 2 ^ 32)
    (hD' : D'.length < 2 ^ 32) (hC' : C'.length < 2 ^ 32)
    (hZ' : Z'.length < 2 ^ 32)
    (h : encode D C Z = encode D' C' Z') : D = D' ∧ C = C' ∧ Z = Z' := by
  unfold encode at h
  rw [List.append_assoc, List.append_assoc] at h
  obtain ⟨hDe, h1⟩ := length_prefix4_append_inj D D' _ _ hD hD' h
  obtain ⟨hCe, h2⟩ := length_prefix4_append_inj C C' _ _ hC hC' h1
  have h3 := length_prefix4_append_inj Z Z' [] [] hZ hZ'
    (by simpa using h2)
  exact ⟨hDe, hCe, h3.1⟩

/-- Witness for C7 at concrete short byte strings. -/
theorem C7_encode_injective_witness :
    ([1] : Bytes) = [1] ∧ ([2, 3] : Bytes) = [2, 3] ∧ ([] : Bytes) = [] :=
  C7_encode_injective [1] [2, 3] [] [1] [2, 3] [] (by decide) (by decide)
    (by decide) (by decide) (by decide) (by decide) rfl

/-- C8 counterexample: `FragmentBuilder.__init__` accepts
`fragment_length = 128 < 256` — a builder instance in that state exists,
refuting "raised at construction time". -/
theorem C8_counterexample : exceptOk smallLenBuilder = true := rfl

/-- C8 amended.  Missing seed in Mode A and missing Evol in Mode B are
rejected at construction; `ℓ < 256` passes construction and only raises
when `build` reaches `compute_fragment`. -/
theorem C8_config_errors :
    (∀ (d : Bytes) (e : Option (Nat → Bytes)) (L : Nat) (k : Bool),
      FragmentBuilder.init d "A" none e L k =
        .error (.valueError "Mode A requires a seed")) ∧
    (∀ (d : Bytes) (s : Option Bytes) (L : Nat) (k : Bool),
      FragmentBuilder.init d "B" s none L k =
        .error (.valueError "Mode B requires an evolution function")) ∧
    (∀ (p : Prims) (b : FragmentBuilder) (S : Bytes) (c : Bool),
      b.fragment_length < 256 → FragmentBuilder.build p b S c = none) := by
  refine ⟨fun d e L k => rfl, fun d s L k => rfl, fun p b S c hL => ?_⟩
  simp [FragmentBuilder.build, compute_fragment, hL]

/-- Witness for C8: the under-length builder exists and its `build` raises
the parameter error. -/
theorem C8_config_errors_witness :
    FragmentBuilder.build toyPrims smallBuilderA demoPayload false = none :=
  C8_config_errors.2.2 toyPrims smallBuilderA demoPayload false (by decide)

/-- C9 counterexample: the secure element load applies a blob whose anchor
(3) is strictly below the in-memory anchor (10) as long as the rollback
counter has not decreased — no security fault, no refusal. -/
theorem C9_counterexample :
    SecureElementState.loadState demoSE (some demoOldAnchorBlob) =
      .ok { core := { mode := "B", anchor := 3, seed := none,
                      hasPersistence := true, erased := [] },
            rollback_counter := 5 } := rfl

/-- C9 amended.  Base ReceiverState: a blob with an older anchor is
silently ignored, applying nothing and raising nothing.  Secure element:
a blob with an older rollback counter raises the security fault and
applies nothing; the anchor itself is not compared. -/
theorem C9_anti_rollback :
    (∀ (st : ReceiverState) (b : Blob), b.anchor.getD 0 < st.anchor →
      ReceiverState.loadState st (some b) = st) ∧
    (∀ (se : SecureElementState) (b : Blob),
      b.rollback_counter.getD 0 < se.rollback_counter →
      SecureElementState.loadState se (some b) = .error ()) := by
  constructor
  · intro st b h
    simp only [ReceiverState.loadState]
    rw [if_neg (by omega)]
  · intro se b h
    simp only [SecureElementState.loadState]
    rw [if_pos h]

/-- Witness for the amended C9 at concrete states and blobs. -/
theorem C9_anti_rollback_witness :
    ReceiverState.loadState demoSE.core (some demoOldAnchorBlob) =
      demoSE.core ∧
    SecureElementState.loadState demoSE (some demoLowCounterBlob) =
      .error () :=
  ⟨C9_anti_rollback.1 demoSE.core demoOldAnchorBlob (by decide),
    C9_anti_rollback.2 demoSE demoLowCounterBlob (by decide)⟩

/-- C10.  Validation is read-only: `validate` returns the receiver state
it was given, byte for byte, in every mode, variant and outcome. -/
theorem C10_validate_read_only (p : Prims) (cfg : ValidatorCfg) (ct : Bool)
    (frag : Bytes) (st : ReceiverState) (content : Bytes) (cip : Bool)
    (stats : Stats) :
    (validateRun p cfg ct frag st content cip stats).2.1 = st := by
  unfold validateRun
  repeat' split <;> try rfl
  all_goals simp only []
  all_goals (
    rw [apply_ite
      (fun r : Option (ValidationResult × Option Nat) × ReceiverState × Stats =>
        r.2.1)]
    simp)
